import Mathlib

/-!
Shallow embedding of `github-mq-to-post-relay` (src/main.go) and proofs of
the specification claims about it.

Modelling conventions:
  * The Go process environment (`os.Getenv`) is a total function
    `Env : String → String`; Go returns `""` for an unset variable, so unset
    and empty are identified, exactly as the source's `== ""` checks do.
  * Byte sequences (`[]byte`, HTTP bodies) are `List Nat` with each element
    `< 256`.
  * `log.Fatal` (which exits the process with a non-zero status) is modelled
    by returning `none` from the configuration loader.
  * Logged warnings that name a skipped relay index are modelled by returning
    the list of skipped indices alongside the configurations.
-/

/-- Process environment: `os.Getenv` as a total function, `""` when unset. -/
def Env : Type := String → String

/-- RelayConfig from src/main.go: routing key, target URL and logging index. -/
structure RelayConfig where
  RepoKey : String
  TargetURL : String
  Index : Int
deriving DecidableEq, Repr

/-- Go `strconv.Atoi`: optional sign, one or more ASCII digits, nothing else,
value within the 64-bit `int` range; `none` models the error return. -/
def goAtoi (s : String) : Option Int :=
  let cs := s.toList
  let (neg, digits) :=
    match cs with
    | '-' :: rest => (true, rest)
    | '+' :: rest => (false, rest)
    | _ => (false, cs)
  if digits = [] then none
  else if digits.all (fun d => d.isDigit) then
    let mag : Nat := digits.foldl (fun acc d => acc * 10 + (d.toNat - 48)) 0
    let v : Int := if neg then -(mag : Int) else (mag : Int)
    if -(2 ^ 63) ≤ v ∧ v ≤ 2 ^ 63 - 1 then some v else none
  else none

/-- One iteration of the numbered-configuration loop body of
`loadRelayConfigs` (src/main.go lines 46-63): read the indexed pair of
environment variables; `none` models the warning-and-skip branch taken when
either is empty. -/
def numberedEntry (env : Env) (i : Nat) : Option RelayConfig :=
  let repoKey := env ("DIRECT_EXCHANGE_REPO_KEY_" ++ toString i)
  let targetURL := env ("RELAY_TARGET_URL_" ++ toString i)
  if repoKey = "" ∨ targetURL = "" then none
  else some { RepoKey := repoKey, TargetURL := targetURL, Index := (i : Int) }

/-- `loadLegacyConfig` from src/main.go: the unindexed pair; `none` models the
`log.Fatal` call (process exits with a non-zero status). -/
def loadLegacyConfig (env : Env) : Option (List RelayConfig) :=
  let repoKey := env "DIRECT_EXCHANGE_REPO_KEY"
  let targetURL := env "RELAY_TARGET_URL"
  if repoKey = "" ∨ targetURL = "" then none
  else some [{ RepoKey := repoKey, TargetURL := targetURL, Index := 0 }]

/-- `loadRelayConfigs` from src/main.go.  The result pairs the returned
configuration list with the list of indices named in skip warnings; `none`
models the fatal exit inside `loadLegacyConfig`.  The Go loop
`for i := 1; i <= relayCount; i++` is the index list `List.range' 1 count`
(empty when the parsed count is zero or negative, matching the Go loop). -/
def loadRelayConfigs (env : Env) : Option (List RelayConfig × List Nat) :=
  let relayCountStr := env "RELAY_COUNT"
  if relayCountStr = "" then
    (loadLegacyConfig env).map (fun l => (l, []))
  else
    (goAtoi relayCountStr).elim
      ((loadLegacyConfig env).map (fun l => (l, [])))
      (fun relayCount =>
        let idxs := List.range' 1 relayCount.toNat
        let configs := idxs.filterMap (numberedEntry env)
        let warnings := idxs.filter (fun i => (numberedEntry env i).isNone)
        if configs.isEmpty then
          (loadLegacyConfig env).map (fun l => (l, warnings))
        else
          some (configs, warnings))

/-- ASCII bytes of a string literal (all strings used here are ASCII, where
Go's UTF-8 bytes coincide with the code points). -/
def strBytes (s : String) : List Nat := s.toList.map (fun c => c.toNat)

/-- Go `net/url.shouldEscape(c, encodeQueryComponent)` is false exactly for
ASCII alphanumerics and `-`, `_`, `.`, `~`. -/
def isUnreservedQueryByte (b : Nat) : Bool :=
  (97 ≤ b && b ≤ 122) || (65 ≤ b && b ≤ 90) || (48 ≤ b && b ≤ 57) ||
    b == 45 || b == 95 || b == 46 || b == 126

/-- Upper-case hexadecimal digit byte for a value below 16, as in Go's
`"0123456789ABCDEF"` table. -/
def upperHexDigit (n : Nat) : Nat := if n < 10 then 48 + n else 55 + n

/-- Go `url.QueryEscape` on a single byte: unreserved bytes pass through,
space becomes `+` (43), every other byte becomes `%XX` with upper-case hex. -/
def encodeQueryByte (b : Nat) : List Nat :=
  if isUnreservedQueryByte b then [b]
  else if b == 32 then [43]
  else [37, upperHexDigit (b / 16), upperHexDigit (b % 16)]

/-- Go `url.QueryEscape` over a byte sequence. -/
def queryEscape (bs : List Nat) : List Nat := (bs.map encodeQueryByte).flatten

/-- The body built by `postToUrl` (src/main.go lines 234-237):
`url.Values{}.Set("payload", payload)` followed by `Encode()` yields
`payload=` followed by the query-escaped payload. -/
def formEncode (payload : List Nat) : List Nat :=
  strBytes "payload=" ++ queryEscape payload

/-- Go `net/url.stringContainsCTLByte`: any byte below 0x20 or equal to 0x7f.
`url.Parse` rejects exactly such URLs up front, and this is the failure mode
of request construction that the embedding covers; `url.Parse` also rejects
some further malformed URLs, so success here over-approximates Go's success. -/
def stringContainsCTLByte (s : String) : Bool :=
  s.toList.any (fun c => c.toNat < 32 || c.toNat == 127)

/-- Outbound HTTP request as assembled by `postToUrl`; header names are
written as in the source (HTTP header names are case-insensitive). -/
structure HttpRequest where
  method : String
  url : String
  headers : List (String × String)
  body : List Nat
deriving DecidableEq, Repr

/-- Outcome of one `postToUrl` call in the embedding. -/
inductive PostOutcome where
  | sent (req : HttpRequest)
  | panicked (stage : String)
deriving DecidableEq, Repr

/-- `postToUrl` from src/main.go (lines 230-254), up to handing the request
to the transport.  When `http.NewRequestWithContext` fails (modelled by the
control-byte check of `url.Parse`), the source logs the error but does not
return: the next statement `req.Header.Set(...)` dereferences the nil
request pointer, which is a runtime panic — modelled as `panicked`. -/
def postToUrl (jsonPayload : List Nat) (targetURL : String) : PostOutcome :=
  let encoded := formEncode jsonPayload
  if stringContainsCTLByte targetURL then
    PostOutcome.panicked "nil request header set after build-request error"
  else
    PostOutcome.sent
      { method := "POST"
        url := targetURL
        headers :=
          [("Content-Type", "application/x-www-form-urlencoded"),
           ("Content-Length", toString encoded.length),
           ("X-GitHub-Event", "push")]
        body := encoded }

/-- Hexadecimal digit test on a byte (both cases), as in standard
`application/x-www-form-urlencoded` decoding. -/
def isHexDigitByte (b : Nat) : Bool :=
  (48 ≤ b && b ≤ 57) || (65 ≤ b && b ≤ 70) || (97 ≤ b && b ≤ 102)

/-- Value of a hexadecimal digit byte. -/
def hexVal (b : Nat) : Nat :=
  if 48 ≤ b && b ≤ 57 then b - 48
  else if 65 ≤ b && b ≤ 70 then b - 55
  else if 97 ≤ b && b ≤ 102 then b - 87
  else 0

/-- Standard `application/x-www-form-urlencoded` percent-decoding of a field:
`+` is a space, `%XY` with two hex digits is the byte `16*X+Y`, anything else
passes through (malformed `%` sequences are left literal). -/
def formUrlDecode : List Nat → List Nat
  | [] => []
  | c :: rest =>
    if c = 43 then 32 :: formUrlDecode rest
    else if c = 37 then
      match rest with
      | h1 :: h2 :: rest2 =>
        if isHexDigitByte h1 && isHexDigitByte h2 then
          (hexVal h1 * 16 + hexVal h2) :: formUrlDecode rest2
        else 37 :: formUrlDecode (h1 :: h2 :: rest2)
      | s => 37 :: formUrlDecode s
    else c :: formUrlDecode rest

/-- Split a form body at `&` (38) separators. -/
def splitAmp : List Nat → List (List Nat)
  | [] => [[]]
  | c :: rest =>
    if c = 38 then [] :: splitAmp rest
    else
      match splitAmp rest with
      | [] => [[c]]
      | f :: fs => (c :: f) :: fs

/-- Standard decoding of an `application/x-www-form-urlencoded` body into
(name, value) pairs: split fields at `&`, split each field at its first `=`
(61), percent-decode both sides. -/
def parseFormBody (body : List Nat) : List (List Nat × List Nat) :=
  (splitAmp body).map (fun field =>
    (formUrlDecode (field.takeWhile (fun c => c != 61)),
     formUrlDecode (((field.dropWhile (fun c => c != 61)).drop 1))))

/-- ASCII bytes of the form-field name `payload`. -/
def payloadKeyBytes : List Nat := strBytes "payload"

/-- Actions a worker performs on one delivery (src/main.go lines 211-218). -/
inductive WorkerAction where
  | emitShutdown (msg : String)
  | logIgnored (index : Int) (repoKey : String)
  | forward (body : List Nat) (targetURL : String) (index : Int) (repoKey : String)
deriving DecidableEq, Repr

/-- The `case d := <-deliveries` body of the consume loop in
`listenForGitHubPush`: when `SHUTDOWN_ON_GITHUB_PUSH` is `"1"` the worker
sends on the shared shutdown conduit, otherwise it logs that the push is
ignored; in both cases it then calls `postToUrl` in the same step. -/
def handleDelivery (env : Env) (cfg : RelayConfig) (body : List Nat) : List WorkerAction :=
  (if env "SHUTDOWN_ON_GITHUB_PUSH" = "1" then
    [WorkerAction.emitShutdown "push from github"]
  else
    [WorkerAction.logIgnored cfg.Index cfg.RepoKey]) ++
  [WorkerAction.forward body cfg.TargetURL cfg.Index cfg.RepoKey]

/-- Events the consume loop's `select` can observe. -/
inductive LoopEvent where
  | delivery (body : List Nat)
  | shutdown (msg : String)
  | connClosed (reason : String)
deriving DecidableEq, Repr

/-- Whether a loop event is a message delivery. -/
def LoopEvent.isDelivery : LoopEvent → Bool
  | LoopEvent.delivery _ => true
  | _ => false

/-- The consume loop of `listenForGitHubPush` (src/main.go lines 208-227),
run over a sequence of observed events: a delivery is handled and the loop
continues; a shutdown notification breaks the loop and the function returns
`nil`; a connection-closed notification returns the close reason as the
error.  The result is the list of worker actions performed together with the
return value (`none` while no terminating event has been observed). -/
def consumeLoop (env : Env) (cfg : RelayConfig) :
    List LoopEvent → List WorkerAction × Option (Except String Unit)
  | [] => ([], none)
  | LoopEvent.delivery b :: rest =>
    let r := consumeLoop env cfg rest
    (handleDelivery env cfg b ++ r.1, r.2)
  | LoopEvent.shutdown _ :: _ => ([], some (Except.ok ()))
  | LoopEvent.connClosed reason :: _ => ([], some (Except.error reason))

/-- Actions of the per-relay supervision goroutine in `main`
(src/main.go lines 119-128). -/
inductive SupervisorAction where
  | startListener
  | logRetry (err : String) (index : Int) (repoKey : String)
  | wait (seconds : Nat)
deriving DecidableEq, Repr

/-- One iteration of the supervision loop: log "Starting listener" and run
`listenForGitHubPush` (the `startListener` action), then, only when it
returned an error, log the error tagged with the relay's index and routing
key and wait 60 seconds. -/
def superviseIteration (cfg : RelayConfig) (res : Option String) : List SupervisorAction :=
  SupervisorAction.startListener ::
    match res with
    | some e => [SupervisorAction.logRetry e cfg.Index cfg.RepoKey, SupervisorAction.wait 60]
    | none => []

/-- The unbounded `for` loop of a supervision goroutine, run over a finite
prefix of worker-session results: one iteration per result, with no exit
path (the Go loop has no `break` or `return`). -/
def superviseTrace (cfg : RelayConfig) : List (Option String) → List SupervisorAction
  | [] => []
  | r :: rs => superviseIteration cfg r ++ superviseTrace cfg rs

/-- The concrete request `postToUrl` assembles for the C1 example payload and
target URL, used to instantiate the C1 theorem. -/
def c1Req : HttpRequest :=
  { method := "POST"
    url := "https://example.test/hook"
    headers :=
      [("Content-Type", "application/x-www-form-urlencoded"),
       ("Content-Length", toString (formEncode (strBytes "\x7b\"ref\":\"refs/heads/main\"\x7d")).length),
       ("X-GitHub-Event", "push")]
    body := formEncode (strBytes "\x7b\"ref\":\"refs/heads/main\"\x7d") }

/-- Every request `postToUrl` actually sends has the form-encoded body and
the three headers set in src/main.go lines 251-254. -/
theorem postToUrl_sent_shape (p : List Nat) (url : String) (req : HttpRequest)
    (h : postToUrl p url = PostOutcome.sent req) :
    req.body = formEncode p ∧
    ("Content-Type", "application/x-www-form-urlencoded") ∈ req.headers ∧
    ("X-GitHub-Event", "push") ∈ req.headers := by
  unfold postToUrl at h
  by_cases hc : stringContainsCTLByte url = true
  · rw [if_pos hc] at h
    exact absurd h (by simp)
  · rw [if_neg hc] at h
    injection h with h
    subst h
    exact ⟨rfl, by simp, by simp⟩

/-- C1: for every invocation of the Forwarder with payload bytes
`{"ref":"refs/heads/main"}` and any target URL, the emitted HTTP POST has
body exactly `payload=%7B%22ref%22%3A%22refs%2Fheads%2Fmain%22%7D` and
carries the headers `Content-Type: application/x-www-form-urlencoded` and
`X-GitHub-Event: push`. -/
theorem C1_forwarder_body_and_headers (url : String) (req : HttpRequest)
    (h : postToUrl (strBytes "\x7b\"ref\":\"refs/heads/main\"\x7d") url = PostOutcome.sent req) :
    req.body = strBytes "payload=%7B%22ref%22%3A%22refs%2Fheads%2Fmain%22%7D" ∧
    ("Content-Type", "application/x-www-form-urlencoded") ∈ req.headers ∧
    ("X-GitHub-Event", "push") ∈ req.headers := by
  obtain ⟨hb, h1, h2⟩ := postToUrl_sent_shape _ url req h
  exact ⟨hb.trans (by decide), h1, h2⟩

/-- Witness for C1 at the spec's example target URL. -/
theorem C1_witness :
    c1Req.body = strBytes "payload=%7B%22ref%22%3A%22refs%2Fheads%2Fmain%22%7D" ∧
    ("Content-Type", "application/x-www-form-urlencoded") ∈ c1Req.headers ∧
    ("X-GitHub-Event", "push") ∈ c1Req.headers :=
  C1_forwarder_body_and_headers "https://example.test/hook" c1Req (by decide)

/-- C2 (code bug): a target URL containing a control byte makes
`http.NewRequestWithContext` fail; the source logs the build error but is
missing a `return`, so the following `req.Header.Set` dereferences the nil
request and panics instead of returning normally. -/
theorem C2_construction_failure_panics :
    postToUrl (strBytes "\x7b\"ref\":\"refs/heads/main\"\x7d") "https://example.test/hook\n" =
      PostOutcome.panicked "nil request header set after build-request error" := by
  decide

/-- Decoding inverts the upper-hex table on values below 16. -/
theorem hexVal_upperHexDigit : ∀ x, x < 16 → hexVal (upperHexDigit x) = x := by
  decide

/-- The upper-hex table produces hexadecimal digit bytes. -/
theorem isHexDigitByte_upperHexDigit : ∀ x, x < 16 → isHexDigitByte (upperHexDigit x) = true := by
  decide

/-- Unreserved query bytes are neither `+` (43) nor `%` (37). -/
theorem unreserved_ne_plus_percent (b : Nat) (h : isUnreservedQueryByte b = true) :
    b ≠ 43 ∧ b ≠ 37 := by
  simp only [isUnreservedQueryByte, Bool.or_eq_true, Bool.and_eq_true,
    decide_eq_true_eq, beq_iff_eq] at h
  omega

/-- Unfolding lemma: a byte other than `+` and `%` passes through decoding. -/
theorem formUrlDecode_cons_other (c : Nat) (h43 : c ≠ 43) (h37 : c ≠ 37) (rest : List Nat) :
    formUrlDecode (c :: rest) = c :: formUrlDecode rest := by
  match rest with
  | [] => simp only [formUrlDecode]; simp [h43, h37]
  | [a] => simp only [formUrlDecode]; simp [h43, h37]
  | a :: b :: r => simp only [formUrlDecode]; simp [h43, h37]

/-- Unfolding lemma: `+` decodes to a space. -/
theorem formUrlDecode_cons_plus (rest : List Nat) :
    formUrlDecode (43 :: rest) = 32 :: formUrlDecode rest := by
  match rest with
  | [] => simp only [formUrlDecode]; simp
  | [a] => simp only [formUrlDecode]; simp
  | a :: b :: r => simp only [formUrlDecode]; simp

/-- Unfolding lemma: a valid percent-escape decodes to its byte value. -/
theorem formUrlDecode_percent (h1 h2 : Nat) (rest : List Nat)
    (hh1 : isHexDigitByte h1 = true) (hh2 : isHexDigitByte h2 = true) :
    formUrlDecode (37 :: h1 :: h2 :: rest) = (hexVal h1 * 16 + hexVal h2) :: formUrlDecode rest := by
  simp only [formUrlDecode]
  simp [hh1, hh2]

/-- Decoding one encoded byte recovers that byte, whatever follows. -/
theorem formUrlDecode_encodeQueryByte (b : Nat) (hb : b < 256) (rest : List Nat) :
    formUrlDecode (encodeQueryByte b ++ rest) = b :: formUrlDecode rest := by
  unfold encodeQueryByte
  by_cases hu : isUnreservedQueryByte b = true
  · rw [if_pos hu]
    obtain ⟨h43, h37⟩ := unreserved_ne_plus_percent b hu
    simp only [List.cons_append, List.nil_append]
    exact formUrlDecode_cons_other b h43 h37 rest
  · rw [if_neg hu]
    by_cases h32 : b = 32
    · subst h32
      simp only [beq_self_eq_true, if_pos]
      simp only [List.cons_append, List.nil_append]
      exact formUrlDecode_cons_plus rest
    · have hbne : (b == 32) = false := by simp [h32]
      rw [hbne, if_neg (by simp)]
      simp only [List.cons_append, List.nil_append]
      rw [formUrlDecode_percent _ _ _ (isHexDigitByte_upperHexDigit _ (by omega))
        (isHexDigitByte_upperHexDigit _ (by omega))]
      rw [hexVal_upperHexDigit _ (by omega), hexVal_upperHexDigit _ (by omega)]
      congr 1
      omega

/-- Decoding an escaped byte sequence recovers it, whatever follows. -/
theorem formUrlDecode_queryEscape (p : List Nat) (hp : ∀ b ∈ p, b < 256) (rest : List Nat) :
    formUrlDecode (queryEscape p ++ rest) = p ++ formUrlDecode rest := by
  induction p with
  | nil => simp [queryEscape]
  | cons b bs ih =>
    have hb : b < 256 := hp b (List.mem_cons_self b bs)
    have hbs : ∀ x ∈ bs, x < 256 := fun x hx => hp x (List.mem_cons_of_mem b hx)
    simp only [queryEscape, List.map_cons, List.flatten_cons, List.append_assoc]
    rw [formUrlDecode_encodeQueryByte b hb]
    simpa [queryEscape] using ih hbs

set_option maxRecDepth 4096 in
/-- Encoded bytes never contain the form separators `&` (38) and `=` (61). -/
theorem encodeQueryByte_no_separators :
    ∀ b, b < 256 → ((encodeQueryByte b).all (fun c => (c != 38) && (c != 61))) = true := by
  decide

/-- Escaped payloads never contain the form separators `&` (38) and `=` (61). -/
theorem queryEscape_no_separators (p : List Nat) (hp : ∀ b ∈ p, b < 256) :
    ∀ c ∈ queryEscape p, c ≠ 38 ∧ c ≠ 61 := by
  intro c hc
  simp only [queryEscape, List.mem_flatten, List.mem_map] at hc
  obtain ⟨l, ⟨b, hb, rfl⟩, hcl⟩ := hc
  have := encodeQueryByte_no_separators b (hp b hb)
  rw [List.all_eq_true] at this
  have := this c hcl
  simp only [Bool.and_eq_true, bne_iff_ne] at this
  exact this

/-- Splitting at `&` leaves a separator-free list whole. -/
theorem splitAmp_no_sep (l : List Nat) (h : ∀ c ∈ l, c ≠ 38) : splitAmp l = [l] := by
  induction l with
  | nil => rfl
  | cons c rest ih =>
    have hc : c ≠ 38 := h c (List.mem_cons_self c rest)
    have hrest : ∀ x ∈ rest, x ≠ 38 := fun x hx => h x (List.mem_cons_of_mem c hx)
    simp only [splitAmp, if_neg hc]
    rw [ih hrest]

/-- ASCII bytes of the fixed body head `payload=`. -/
theorem strBytes_payload_eq :
    strBytes "payload=" = [112, 97, 121, 108, 111, 97, 100, 61] := by
  decide

/-- C10: for every payload byte sequence, standard
`application/x-www-form-urlencoded` decoding of the emitted request body,
followed by extraction of the single field named `payload`, yields exactly
the original payload bytes. -/
theorem C10_payload_roundtrip (p : List Nat) (url : String) (req : HttpRequest)
    (hp : ∀ b ∈ p, b < 256)
    (h : postToUrl p url = PostOutcome.sent req) :
    List.lookup payloadKeyBytes (parseFormBody req.body) = some p := by
  obtain ⟨hb, -, -⟩ := postToUrl_sent_shape p url req h
  rw [hb]
  have hsep : ∀ c ∈ formEncode p, c ≠ 38 := by
    intro c hc
    rw [formEncode, List.mem_append] at hc
    rcases hc with hc | hc
    · rw [strBytes_payload_eq] at hc
      simp at hc
      omega
    · exact (queryEscape_no_separators p hp c hc).1
  unfold parseFormBody
  rw [splitAmp_no_sep _ hsep]
  have hpre : formEncode p =
      112 :: 97 :: 121 :: 108 :: 111 :: 97 :: 100 :: 61 :: queryEscape p := by
    rw [formEncode, strBytes_payload_eq]
    rfl
  rw [hpre]
  simp only [List.map_cons, List.map_nil, List.takeWhile_cons, List.dropWhile_cons]
  norm_num
  have hkeydec : formUrlDecode [112, 97, 121, 108, 111, 97, 100] = payloadKeyBytes := by
    decide
  have hval : formUrlDecode (queryEscape p) = p := by
    have h0 : formUrlDecode ([] : List Nat) = [] := rfl
    have := formUrlDecode_queryEscape p hp []
    rw [List.append_nil, h0, List.append_nil] at this
    exact this
  rw [hkeydec, hval]
  simp [List.lookup]

/-- The concrete request `postToUrl` assembles for the C10 witness payload
(which includes a NUL byte, a non-ASCII byte, a space and the bytes of `%`,
`&` and `=`). -/
def c10Req : HttpRequest :=
  { method := "POST"
    url := "https://example.test/hook"
    headers :=
      [("Content-Type", "application/x-www-form-urlencoded"),
       ("Content-Length", toString (formEncode [0, 255, 32, 37, 38, 61]).length),
       ("X-GitHub-Event", "push")]
    body := formEncode [0, 255, 32, 37, 38, 61] }

/-- Witness for C10 on a payload with a NUL byte, a non-ASCII byte, a space
and the separator bytes themselves. -/
theorem C10_witness :
    List.lookup payloadKeyBytes (parseFormBody c10Req.body) = some [0, 255, 32, 37, 38, 61] :=
  C10_payload_roundtrip [0, 255, 32, 37, 38, 61] "https://example.test/hook" c10Req
    (by decide) (by decide)

/-- A numbered entry that loads carries its own index. -/
theorem numberedEntry_index (env : Env) (i : Nat) (c : RelayConfig)
    (h : numberedEntry env i = some c) : c.Index = (i : Int) := by
  simp only [numberedEntry] at h
  split at h
  · cases h
  · injection h with h
    rw [← h]

/-- A successful legacy load returns exactly the singleton with index 0, and
only when both unindexed variables are set. -/
theorem loadLegacyConfig_eq_some (env : Env) (l : List RelayConfig)
    (h : loadLegacyConfig env = some l) :
    l = [{ RepoKey := env "DIRECT_EXCHANGE_REPO_KEY",
           TargetURL := env "RELAY_TARGET_URL", Index := 0 }] ∧
    env "DIRECT_EXCHANGE_REPO_KEY" ≠ "" ∧ env "RELAY_TARGET_URL" ≠ "" := by
  simp only [loadLegacyConfig] at h
  split at h
  · cases h
  · injection h with h
    rename_i hcond
    push_neg at hcond
    exact ⟨h.symm, hcond⟩

/-- The legacy load is fatal exactly when the unindexed pair is incomplete. -/
theorem loadLegacyConfig_eq_none (env : Env)
    (h : env "DIRECT_EXCHANGE_REPO_KEY" = "" ∨ env "RELAY_TARGET_URL" = "") :
    loadLegacyConfig env = none := by
  simp only [loadLegacyConfig]
  rw [if_pos h]

/-- The numbered path of `loadRelayConfigs`: with a parsable count and at
least one complete entry, the loader returns the complete entries (in index
order) and warns exactly on the skipped indices. -/
theorem loadRelayConfigs_numbered (env : Env) (c : Int)
    (hne : env "RELAY_COUNT" ≠ "") (hg : goAtoi (env "RELAY_COUNT") = some c)
    (hnonempty : (List.range' 1 c.toNat).filterMap (numberedEntry env) ≠ []) :
    loadRelayConfigs env =
      some ((List.range' 1 c.toNat).filterMap (numberedEntry env),
            (List.range' 1 c.toNat).filter (fun i => (numberedEntry env i).isNone)) := by
  simp only [loadRelayConfigs]
  rw [if_neg hne, hg]
  simp only [Option.elim_some]
  rw [if_neg (by simp [List.isEmpty_iff, hnonempty])]

/-- A legacy result (mapped into the loader's result shape) is always the
unindexed singleton. -/
theorem legacy_mapped_shape (env : Env) (w : List Nat) (r : List RelayConfig × List Nat)
    (h : (loadLegacyConfig env).map (fun l => (l, w)) = some r) :
    r.1 = [{ RepoKey := env "DIRECT_EXCHANGE_REPO_KEY",
             TargetURL := env "RELAY_TARGET_URL", Index := 0 }] := by
  cases hl : loadLegacyConfig env with
  | none => rw [hl] at h; cases h
  | some l =>
    rw [hl] at h
    injection h with h
    obtain ⟨hl2, -, -⟩ := loadLegacyConfig_eq_some env l hl
    rw [← h]
    exact hl2

/-- C7: with a parsable count and at least one complete indexed entry, the
loader returns exactly the complete entries as configurations and warns
exactly on the skipped (incomplete) indices. -/
theorem C7_incomplete_entries_skipped (env : Env) (c : Int)
    (hne : env "RELAY_COUNT" ≠ "")
    (hg : goAtoi (env "RELAY_COUNT") = some c)
    (hsome : ∃ i ∈ List.range' 1 c.toNat, (numberedEntry env i).isSome) :
    loadRelayConfigs env =
      some ((List.range' 1 c.toNat).filterMap (numberedEntry env),
            (List.range' 1 c.toNat).filter (fun i => (numberedEntry env i).isNone)) := by
  apply loadRelayConfigs_numbered env c hne hg
  obtain ⟨i, hi, hs⟩ := hsome
  obtain ⟨x, hx⟩ := Option.isSome_iff_exists.mp hs
  intro hemp
  have := List.filterMap_eq_nil_iff.mp hemp i hi
  rw [this] at hx
  cases hx

/-- Environment for the C7 witness: `RELAY_COUNT=3`, entries 1 and 3
complete, entry 2 missing. -/
def envC7 : Env := fun k =>
  if k = "RELAY_COUNT" then "3"
  else if k = "DIRECT_EXCHANGE_REPO_KEY_1" then "repo-one"
  else if k = "RELAY_TARGET_URL_1" then "http://one.example"
  else if k = "DIRECT_EXCHANGE_REPO_KEY_3" then "repo-three"
  else if k = "RELAY_TARGET_URL_3" then "http://three.example"
  else ""

/-- Witness for C7: entries 1 and 3 complete, entry 2 incomplete — exactly 2
relays are configured and the single warning names index 2. -/
theorem C7_witness :
    loadRelayConfigs envC7 =
      some ([{ RepoKey := "repo-one", TargetURL := "http://one.example", Index := 1 },
             { RepoKey := "repo-three", TargetURL := "http://three.example", Index := 3 }],
            [2]) := by
  rw [C7_incomplete_entries_skipped envC7 3 (by decide) (by decide)
    ⟨1, by decide, by decide⟩]
  decide

/-- C8: when `RELAY_COUNT` is unset (empty) or unparsable and the legacy
unindexed pair is present, the loader returns exactly one relay
configuration built from that pair. -/
theorem C8_legacy_single (env : Env)
    (hcount : env "RELAY_COUNT" = "" ∨ goAtoi (env "RELAY_COUNT") = none)
    (hkey : env "DIRECT_EXCHANGE_REPO_KEY" ≠ "")
    (hurl : env "RELAY_TARGET_URL" ≠ "") :
    loadRelayConfigs env =
      some ([{ RepoKey := env "DIRECT_EXCHANGE_REPO_KEY",
               TargetURL := env "RELAY_TARGET_URL", Index := 0 }], []) := by
  have hleg : loadLegacyConfig env =
      some [{ RepoKey := env "DIRECT_EXCHANGE_REPO_KEY",
              TargetURL := env "RELAY_TARGET_URL", Index := 0 }] := by
    simp only [loadLegacyConfig]
    rw [if_neg (not_or.mpr ⟨hkey, hurl⟩)]
  simp only [loadRelayConfigs]
  rcases hcount with h | h
  · rw [if_pos h, hleg]
    rfl
  · by_cases he : env "RELAY_COUNT" = ""
    · rw [if_pos he, hleg]
      rfl
    · rw [if_neg he, h]
      simp only [Option.elim_none]
      rw [hleg]
      rfl

/-- Environment for the C8 witness: unparsable `RELAY_COUNT`, legacy pair
present. -/
def envC8 : Env := fun k =>
  if k = "RELAY_COUNT" then "three"
  else if k = "DIRECT_EXCHANGE_REPO_KEY" then "legacy-repo"
  else if k = "RELAY_TARGET_URL" then "http://legacy.example"
  else ""

/-- Witness for C8 at a concrete environment with `RELAY_COUNT=three`. -/
theorem C8_witness :
    loadRelayConfigs envC8 =
      some ([{ RepoKey := envC8 "DIRECT_EXCHANGE_REPO_KEY",
               TargetURL := envC8 "RELAY_TARGET_URL", Index := 0 }], []) :=
  C8_legacy_single envC8 (Or.inr (by decide)) (by decide) (by decide)

/-- C6: when no indexed pair is complete under any parsed `RELAY_COUNT` and
the legacy pair is incomplete, the loader is fatal (`none`, modelling the
non-zero-status `log.Fatal` exit before any relay starts); and every
non-fatal load returns a non-empty configuration set. -/
theorem C6_fatal_or_nonempty :
    (∀ env : Env,
        (∀ c, goAtoi (env "RELAY_COUNT") = some c →
          ∀ i ∈ List.range' 1 c.toNat, numberedEntry env i = none) →
        (env "DIRECT_EXCHANGE_REPO_KEY" = "" ∨ env "RELAY_TARGET_URL" = "") →
        loadRelayConfigs env = none) ∧
    (∀ (env : Env) (r : List RelayConfig × List Nat),
        loadRelayConfigs env = some r → r.1 ≠ []) := by
  constructor
  · intro env hnum hleg
    have hlegn := loadLegacyConfig_eq_none env hleg
    simp only [loadRelayConfigs]
    by_cases he : env "RELAY_COUNT" = ""
    · rw [if_pos he, hlegn]
      rfl
    · rw [if_neg he]
      cases hg : goAtoi (env "RELAY_COUNT") with
      | none =>
        simp only [Option.elim_none]
        rw [hlegn]
        rfl
      | some c =>
        simp only [Option.elim_some]
        have hempty : (List.range' 1 c.toNat).filterMap (numberedEntry env) = [] :=
          List.filterMap_eq_nil_iff.mpr (hnum c hg)
        rw [hempty]
        simp [hlegn]
  · intro env r hr
    simp only [loadRelayConfigs] at hr
    by_cases he : env "RELAY_COUNT" = ""
    · rw [if_pos he] at hr
      rw [legacy_mapped_shape env [] r hr]
      simp
    · rw [if_neg he] at hr
      cases hg : goAtoi (env "RELAY_COUNT") with
      | none =>
        rw [hg] at hr
        simp only [Option.elim_none] at hr
        rw [legacy_mapped_shape env [] r hr]
        simp
      | some c =>
        rw [hg] at hr
        simp only [Option.elim_some] at hr
        by_cases hemp :
            ((List.range' 1 c.toNat).filterMap (numberedEntry env)).isEmpty = true
        · rw [if_pos hemp] at hr
          rw [legacy_mapped_shape env _ r hr]
          simp
        · rw [if_neg hemp] at hr
          injection hr with hr
          rw [← hr]
          simpa [List.isEmpty_iff] using hemp

/-- Environment for the C6 witness: nothing configured at all. -/
def envEmpty : Env := fun _ => ""

/-- Witness for C6: with nothing configured the loader is fatal. -/
theorem C6_witness : loadRelayConfigs envEmpty = none :=
  C6_fatal_or_nonempty.1 envEmpty
    (fun c hc => by
      have hnone : goAtoi (envEmpty "RELAY_COUNT") = none := by decide
      rw [hnone] at hc
      cases hc)
    (Or.inl (by decide))

/-- Environment for the C3 counterexample: only the legacy pair is set. -/
def envC3 : Env := fun k =>
  if k = "DIRECT_EXCHANGE_REPO_KEY" then "legacy-repo"
  else if k = "RELAY_TARGET_URL" then "http://legacy.example"
  else ""

/-- Counterexample to C3 as stated: the legacy fallback path returns a
configuration whose index is 0, which is not positive. -/
theorem C3_counterexample :
    ∃ cfgs w, loadRelayConfigs envC3 = some (cfgs, w) ∧
      ∃ cfg ∈ cfgs, ¬(0 < cfg.Index) := by
  refine ⟨[{ RepoKey := "legacy-repo", TargetURL := "http://legacy.example", Index := 0 }],
    [], by decide, _, List.mem_singleton.mpr rfl, by decide⟩

/-- C3 (amended): every configuration set the loader returns has pairwise
distinct indices; moreover either all indices are positive (numbered path)
or the set is the single legacy configuration with index 0. -/
theorem C3_amended_indices (env : Env) (cfgs : List RelayConfig) (w : List Nat)
    (h : loadRelayConfigs env = some (cfgs, w)) :
    cfgs.Pairwise (fun a b => a.Index ≠ b.Index) ∧
    ((∀ cfg ∈ cfgs, 0 < cfg.Index) ∨
      cfgs = [{ RepoKey := env "DIRECT_EXCHANGE_REPO_KEY",
                TargetURL := env "RELAY_TARGET_URL", Index := 0 }]) := by
  have legacyCase :
      ∀ w', (loadLegacyConfig env).map (fun l => (l, w')) = some (cfgs, w) →
        cfgs.Pairwise (fun a b => a.Index ≠ b.Index) ∧
        ((∀ cfg ∈ cfgs, 0 < cfg.Index) ∨
          cfgs = [{ RepoKey := env "DIRECT_EXCHANGE_REPO_KEY",
                    TargetURL := env "RELAY_TARGET_URL", Index := 0 }]) := by
    intro w' h'
    have hshape := legacy_mapped_shape env w' (cfgs, w) h'
    simp only at hshape
    rw [hshape]
    exact ⟨by simp, Or.inr rfl⟩
  have numberedCase :
      ∀ n, cfgs = (List.range' 1 n).filterMap (numberedEntry env) →
        cfgs.Pairwise (fun a b => a.Index ≠ b.Index) ∧
        (∀ cfg ∈ cfgs, 0 < cfg.Index) := by
    intro n hc
    constructor
    · rw [hc]
      apply List.Pairwise.filterMap (numberedEntry env)
        (fun i j hij b hb b' hb' => ?_) (List.pairwise_lt_range' 1 n)
      rw [Option.mem_def] at hb hb'
      rw [numberedEntry_index env i b hb, numberedEntry_index env j b' hb']
      exact fun hcontra => absurd (Int.ofNat_inj.mp hcontra) (Nat.ne_of_lt hij)
    · intro cfg hcfg
      rw [hc] at hcfg
      obtain ⟨i, hi, hent⟩ := List.mem_filterMap.mp hcfg
      rw [numberedEntry_index env i cfg hent]
      have := (List.mem_range'_1.mp hi).1
      omega
  simp only [loadRelayConfigs] at h
  by_cases he : env "RELAY_COUNT" = ""
  · rw [if_pos he] at h
    exact legacyCase [] h
  · rw [if_neg he] at h
    cases hg : goAtoi (env "RELAY_COUNT") with
    | none =>
      rw [hg] at h
      simp only [Option.elim_none] at h
      exact legacyCase [] h
    | some c =>
      rw [hg] at h
      simp only [Option.elim_some] at h
      by_cases hemp :
          ((List.range' 1 c.toNat).filterMap (numberedEntry env)).isEmpty = true
      · rw [if_pos hemp] at h
        exact legacyCase _ h
      · rw [if_neg hemp] at h
        injection h with h
        have hc : cfgs = (List.range' 1 c.toNat).filterMap (numberedEntry env) :=
          (congrArg Prod.fst h).symm
        obtain ⟨h1, h2⟩ := numberedCase c.toNat hc
        exact ⟨h1, Or.inl h2⟩

/-- The configuration the loader returns for the legacy-only environment
`envC3`, used in the C3 amended witness. -/
def c3LegacyCfg : RelayConfig :=
  { RepoKey := "legacy-repo", TargetURL := "http://legacy.example", Index := 0 }

/-- Witness for the amended C3 at the legacy-only environment. -/
theorem C3_amended_witness :
    [c3LegacyCfg].Pairwise (fun a b => a.Index ≠ b.Index) ∧
    ((∀ cfg ∈ [c3LegacyCfg], 0 < cfg.Index) ∨
      [c3LegacyCfg] =
        [{ RepoKey := envC3 "DIRECT_EXCHANGE_REPO_KEY",
           TargetURL := envC3 "RELAY_TARGET_URL", Index := 0 }]) :=
  C3_amended_indices envC3 [c3LegacyCfg] [] (by decide)

/-- C5: on each message arrival, when the global `SHUTDOWN_ON_GITHUB_PUSH`
option is `"1"` the worker first emits a shutdown notification and then still
forwards the message in the same step; otherwise it forwards without
emitting any shutdown notification. -/
theorem C5_shutdown_then_forward (env : Env) (cfg : RelayConfig) (body : List Nat) :
    (env "SHUTDOWN_ON_GITHUB_PUSH" = "1" →
      handleDelivery env cfg body =
        [WorkerAction.emitShutdown "push from github",
         WorkerAction.forward body cfg.TargetURL cfg.Index cfg.RepoKey]) ∧
    (env "SHUTDOWN_ON_GITHUB_PUSH" ≠ "1" →
      handleDelivery env cfg body =
        [WorkerAction.logIgnored cfg.Index cfg.RepoKey,
         WorkerAction.forward body cfg.TargetURL cfg.Index cfg.RepoKey] ∧
      ∀ m, WorkerAction.emitShutdown m ∉ handleDelivery env cfg body) := by
  constructor
  · intro h
    simp [handleDelivery, h]
  · intro h
    constructor
    · simp [handleDelivery, h]
    · intro m
      simp [handleDelivery, h]

/-- Relay configuration used to instantiate witnesses for the loop claims. -/
def cfgW : RelayConfig :=
  { RepoKey := "repo-w", TargetURL := "http://w.example", Index := 1 }

/-- Environment with the shutdown-on-push option enabled. -/
def envShutdownOn : Env := fun k => if k = "SHUTDOWN_ON_GITHUB_PUSH" then "1" else ""

/-- Witness for C5 with the option enabled and disabled. -/
theorem C5_witness :
    handleDelivery envShutdownOn cfgW [104] =
      [WorkerAction.emitShutdown "push from github",
       WorkerAction.forward [104] cfgW.TargetURL cfgW.Index cfgW.RepoKey] ∧
    (handleDelivery envEmpty cfgW [104] =
      [WorkerAction.logIgnored cfgW.Index cfgW.RepoKey,
       WorkerAction.forward [104] cfgW.TargetURL cfgW.Index cfgW.RepoKey] ∧
      ∀ m, WorkerAction.emitShutdown m ∉ handleDelivery envEmpty cfgW [104]) :=
  ⟨(C5_shutdown_then_forward envShutdownOn cfgW [104]).1 (by decide),
   (C5_shutdown_then_forward envEmpty cfgW [104]).2 (by decide)⟩

/-- C4: the consume loop returns success exactly when the first terminating
event it observes is a shutdown notification, and returns the close reason
as the error when the first terminating event is a connection-closed
notification; a successful return implies a shutdown notification was
observed. -/
theorem C4_loop_exit_paths (env : Env) (cfg : RelayConfig) :
    (∀ (pre : List LoopEvent) (msg : String) (rest : List LoopEvent),
      (∀ e ∈ pre, e.isDelivery = true) →
      (consumeLoop env cfg (pre ++ LoopEvent.shutdown msg :: rest)).2 =
        some (Except.ok ())) ∧
    (∀ (pre : List LoopEvent) (reason : String) (rest : List LoopEvent),
      (∀ e ∈ pre, e.isDelivery = true) →
      (consumeLoop env cfg (pre ++ LoopEvent.connClosed reason :: rest)).2 =
        some (Except.error reason)) ∧
    (∀ events : List LoopEvent,
      (consumeLoop env cfg events).2 = some (Except.ok ()) →
      ∃ msg, LoopEvent.shutdown msg ∈ events) := by
  refine ⟨?_, ?_, ?_⟩
  · intro pre msg rest hpre
    induction pre with
    | nil => rfl
    | cons e es ih =>
      have he : e.isDelivery = true := hpre e (List.mem_cons_self e es)
      cases e with
      | delivery b =>
        simp only [List.cons_append, consumeLoop]
        exact ih (fun x hx => hpre x (List.mem_cons_of_mem _ hx))
      | shutdown m => cases he
      | connClosed r => cases he
  · intro pre reason rest hpre
    induction pre with
    | nil => rfl
    | cons e es ih =>
      have he : e.isDelivery = true := hpre e (List.mem_cons_self e es)
      cases e with
      | delivery b =>
        simp only [List.cons_append, consumeLoop]
        exact ih (fun x hx => hpre x (List.mem_cons_of_mem _ hx))
      | shutdown m => cases he
      | connClosed r => cases he
  · intro events hok
    induction events with
    | nil => cases hok
    | cons e es ih =>
      cases e with
      | delivery b =>
        simp only [consumeLoop] at hok
        obtain ⟨m, hm⟩ := ih hok
        exact ⟨m, List.mem_cons_of_mem _ hm⟩
      | shutdown m => exact ⟨m, List.mem_cons_self _ _⟩
      | connClosed r =>
        simp only [consumeLoop] at hok
        cases hok

/-- Witness for C4: a delivery followed by a shutdown returns success; a
delivery followed by a connection-close returns the close reason; success
implies a shutdown was observed. -/
theorem C4_witness :
    (consumeLoop envEmpty cfgW
      [LoopEvent.delivery [104], LoopEvent.shutdown "push from github"]).2 =
      some (Except.ok ()) ∧
    (consumeLoop envEmpty cfgW
      [LoopEvent.delivery [104], LoopEvent.connClosed "connection reset"]).2 =
      some (Except.error "connection reset") ∧
    ∃ msg, LoopEvent.shutdown msg ∈
      [LoopEvent.delivery [104], LoopEvent.shutdown "push from github"] :=
  ⟨(C4_loop_exit_paths envEmpty cfgW).1 [LoopEvent.delivery [104]] "push from github" []
      (by decide),
   (C4_loop_exit_paths envEmpty cfgW).2.1 [LoopEvent.delivery [104]] "connection reset" []
      (by decide),
   (C4_loop_exit_paths envEmpty cfgW).2.2
      [LoopEvent.delivery [104], LoopEvent.shutdown "push from github"]
      ((C4_loop_exit_paths envEmpty cfgW).1 [LoopEvent.delivery [104]] "push from github" []
        (by decide))⟩

/-- C9: the supervision loop never exits — every worker-session result leads
to exactly one further listener start; after an error it logs the error
tagged with the relay's index and routing key and waits 60 seconds before
restarting; after a clean return it restarts immediately, with no logged
error and no delay. -/
theorem C9_supervisor_restarts (cfg : RelayConfig) :
    (∀ (e : String) (rs : List (Option String)),
      superviseTrace cfg (some e :: rs) =
        SupervisorAction.startListener ::
          SupervisorAction.logRetry e cfg.Index cfg.RepoKey ::
            SupervisorAction.wait 60 :: superviseTrace cfg rs) ∧
    (∀ rs : List (Option String),
      superviseTrace cfg (none :: rs) =
        SupervisorAction.startListener :: superviseTrace cfg rs) ∧
    (∀ rs : List (Option String),
      (superviseTrace cfg rs).count SupervisorAction.startListener = rs.length) := by
  refine ⟨?_, ?_, ?_⟩
  · intro e rs
    rfl
  · intro rs
    rfl
  · intro rs
    induction rs with
    | nil => rfl
    | cons r rs ih =>
      cases r with
      | some e =>
        simp [superviseTrace, superviseIteration, List.count_cons, ih]
      | none =>
        simp [superviseTrace, superviseIteration, List.count_cons, ih]
